import Mathlib

/-!
Shallow embedding of the Hangman game (`hangman.py`) and verification of its
specification claims.

Modelling conventions:
- Python strings are Lean `String`s; Python's iteration over a string (which
  yields one-character strings) is modelled by `List String` of one-character
  strings, and Python `set`s of characters by `Finset String`.
- The integer `tries` counter is an `Int` (Python ints are unbounded and may
  go negative).
- Operations that can raise an exception (`set.remove` raising `KeyError`)
  return `Option`, with `none` for the raising run.
- Interactive input is modelled by threading a list of pending raw input
  strings through the round loop; the view layer (pure display) is not
  modelled, but the messages chosen by validation are returned as data.
-/

namespace Hangman

/-- Python `str.upper()` (on the ASCII data of this program): uppercase each
character. -/
def py_upper (s : String) : String :=
  String.mk (s.toList.map Char.toUpper)

/-- Python `str.strip()`: drop whitespace from both ends. -/
def py_strip (s : String) : String :=
  String.mk
    ((((s.toList.dropWhile Char.isWhitespace).reverse).dropWhile
        Char.isWhitespace).reverse)

/-- The constant `string.ascii_uppercase`, as Python iterates it: the list of
the 26 one-character uppercase strings. -/
def ascii_uppercase : List String :=
  ("ABCDEFGHIJKLMNOPQRSTUVWXYZ".toList).map Char.toString

/-- The module constant `DEFAULT_MAX_TRIES = 10`. -/
def DEFAULT_MAX_TRIES : Int := 10

/-- State of the `Word` class: `_plain_word` (the uppercased secret word, as
the list of its one-character strings), `_characters_in_word`
(`set(self._plain_word)`) and `_guessed_characters`. -/
structure Word where
  plain_word : List String
  characters_in_word : Finset String
  guessed_characters : Finset String
deriving DecidableEq

/-- The `Word.__init__` constructor: uppercases the word, takes its character
set, and starts with no guessed characters. -/
def Word.init (word : String) : Word :=
  let p := ((py_upper word).toList).map Char.toString
  { plain_word := p
    characters_in_word := p.toFinset
    guessed_characters := ∅ }

/-- The `Word.current_guessed_state` property: one entry per position of the
plain word, the character if guessed, else an underscore. -/
def Word.current_guessed_state (w : Word) : List String :=
  w.plain_word.map (fun c => if c ∈ w.guessed_characters then c else "_")

/-- The `Word.is_guessed` property: guessed set equals the character set. -/
def Word.is_guessed (w : Word) : Bool :=
  decide (w.guessed_characters = w.characters_in_word)

/-- The `Word.reveal` method: set the guessed set to the full character set. -/
def Word.reveal (w : Word) : Word :=
  { w with guessed_characters := w.characters_in_word }

/-- The `Word._is_character_in_word` helper. -/
def Word.is_character_in_word (w : Word) (char : String) : Bool :=
  decide (char ∈ w.characters_in_word)

/-- The `Word.guess_character` method: if the character is in the word, add it
to the guessed set and return `true`; otherwise return `false` and leave the
state unchanged. -/
def Word.guess_character (w : Word) (char : String) : Bool × Word :=
  if char ∈ w.characters_in_word then
    (true, { w with guessed_characters := insert char w.guessed_characters })
  else
    (false, w)

/-- State of the `Man` class: the `tries` counter. -/
structure Man where
  tries : Int
deriving DecidableEq

/-- The `Man.is_hanged` property, `not self.tries`: by Python integer
truthiness this is `true` exactly when `tries == 0`. -/
def Man.is_hanged (m : Man) : Bool :=
  decide (m.tries = 0)

/-- The `Man.bring_closer_to_hanging` method: `self.tries -= 1`,
unconditionally. -/
def Man.bring_closer_to_hanging (m : Man) : Man :=
  { tries := m.tries - 1 }

/-- State of the `CharacterPool` class: the `unused_characters` and
`used_characters` sets. -/
structure CharacterPool where
  unused_characters : Finset String
  used_characters : Finset String
deriving DecidableEq

/-- The `CharacterPool.__init__` constructor: all 26 uppercase letters unused,
none used. -/
def CharacterPool.init : CharacterPool :=
  { unused_characters := ascii_uppercase.toFinset
    used_characters := ∅ }

/-- The `CharacterPool.use_character` method: `used.add(char)` followed by
`unused.remove(char)`; `set.remove` raises `KeyError` when the character is
absent, modelled by `none`. -/
def CharacterPool.use_character (p : CharacterPool) (char : String) :
    Option CharacterPool :=
  let p1 : CharacterPool :=
    { p with used_characters := insert char p.used_characters }
  if char ∈ p1.unused_characters then
    some { p1 with unused_characters := p1.unused_characters.erase char }
  else
    none

/-- The `CharacterPool.normalize_character` static method:
`str(char).strip().upper()`. -/
def CharacterPool.normalize_character (char : String) : String :=
  py_upper (py_strip char)

/-- The message constant `EMPTY_INPUT_MSG`. -/
def EMPTY_INPUT_MSG : String := "You must insert a character to continue!"

/-- The message constant `MULTI_CHAR_INPUT_MSG`. -/
def MULTI_CHAR_INPUT_MSG : String := "Please insert one character only!"

/-- The formatted message `ALREADY_GUESSED_MSG.format(character=...)`. -/
def ALREADY_GUESSED_MSG (character : String) : String :=
  character ++ " was already guessed!"

/-- The formatted message `INVALID_INPUT_MSG.format(character=...)`. -/
def INVALID_INPUT_MSG (character : String) : String :=
  character ++ " is an invalid option!"

/-- State of the `BoardGame` class: the owned `Word`, `Man` and
`CharacterPool` (the view object is pure display and carries no game state). -/
structure BoardGame where
  word : Word
  man : Man
  character_pool : CharacterPool
deriving DecidableEq

/-- The `BoardGame.__init__` constructor for a given secret word, with the
default number of tries. -/
def BoardGame.init (word : String) : BoardGame :=
  { word := Word.init word
    man := { tries := DEFAULT_MAX_TRIES }
    character_pool := CharacterPool.init }

/-- The `BoardGame.is_game_won` property. -/
def BoardGame.is_game_won (b : BoardGame) : Bool :=
  b.word.is_guessed

/-- The `BoardGame.is_game_lost` property. -/
def BoardGame.is_game_lost (b : BoardGame) : Bool :=
  b.man.is_hanged

/-- The `BoardGame._valid_guess` helper: the guess is in the unused pool. -/
def BoardGame.valid_guess (b : BoardGame) (round_guess : String) : Bool :=
  decide (round_guess ∈ b.character_pool.unused_characters)

/-- The `BoardGame._character_already_guessed` helper: the guess is in the
used pool. -/
def BoardGame.character_already_guessed (b : BoardGame)
    (round_guess : String) : Bool :=
  decide (round_guess ∈ b.character_pool.used_characters)

/-- The `BoardGame._multi_character_input` helper: length strictly above 1. -/
def multi_character_input (round_guess : String) : Bool :=
  decide (round_guess.length > 1)

/-- The `BoardGame._empty_input` helper: `not round_guess`, i.e. the string is
empty. -/
def empty_input (round_guess : String) : Bool :=
  decide (round_guess.length = 0)

/-- The `BoardGame.validate_input` method: returns the validity flag together
with the message displayed on rejection (`none` when accepted). The branch
order is exactly the source's: valid, empty, multi-character, already
guessed, otherwise invalid. -/
def BoardGame.validate_input (b : BoardGame) (round_guess : String) :
    Bool × Option String :=
  if b.valid_guess round_guess then
    (true, none)
  else if empty_input round_guess then
    (false, some EMPTY_INPUT_MSG)
  else if multi_character_input round_guess then
    (false, some MULTI_CHAR_INPUT_MSG)
  else if b.character_already_guessed round_guess then
    (false, some (ALREADY_GUESSED_MSG round_guess))
  else
    (false, some (INVALID_INPUT_MSG round_guess))

/-- The `BoardGame.get_valid_guess` loop over the pending raw inputs: each raw
input is normalized (as `get_user_input` does) and validated; the first
accepted guess is returned with the remaining inputs, `none` if the pending
list is exhausted (the program would keep re-prompting). The game state is
threaded nowhere: validation changes nothing. -/
def BoardGame.get_valid_guess (b : BoardGame) :
    List String → Option (String × List String)
  | [] => none
  | raw :: rest =>
      let round_guess := CharacterPool.normalize_character raw
      if (b.validate_input round_guess).1 then some (round_guess, rest)
      else b.get_valid_guess rest

/-- The `BoardGame.play_round` method: obtain a valid guess, apply
`Word.guess_character`, call `Man.bring_closer_to_hanging` exactly when the
guess was incorrect, and unconditionally `CharacterPool.use_character`;
`none` when input runs out or `use_character` raises. -/
def BoardGame.play_round (b : BoardGame) (inputs : List String) :
    Option (BoardGame × List String) :=
  match b.get_valid_guess inputs with
  | none => none
  | some (guess, rest) =>
      let gw := b.word.guess_character guess
      let man' := if gw.1 then b.man else b.man.bring_closer_to_hanging
      match b.character_pool.use_character guess with
      | none => none
      | some pool' =>
          some ({ word := gw.2, man := man', character_pool := pool' }, rest)

/-- The `BoardGame.end_the_game` method, up to display: if the game is lost
the word is revealed; the returned state is the one handed to the end-of-game
render. -/
def BoardGame.end_the_game (b : BoardGame) : BoardGame :=
  if b.is_game_lost then { b with word := b.word.reveal } else b

/-- The `BoardGame.play_game` round loop: while the game is neither lost nor
won, play a round. The loop is fuelled; `none` means the fuel or the pending
input ran out (the source loops until a terminal state). On normal exit it
returns the state on which `end_the_game` is then called, together with the
unconsumed inputs. -/
def BoardGame.play_game : Nat → BoardGame → List String →
    Option (BoardGame × List String)
  | 0, _, _ => none
  | fuel + 1, b, inputs =>
      if b.is_game_lost || b.is_game_won then some (b, inputs)
      else
        match b.play_round inputs with
        | none => none
        | some (b', rest) => BoardGame.play_game fuel b' rest

/-- Reachability by the controller's round loop: `Reachable b b'` holds when
`b'` arises from `b` by a finite sequence of `play_round` steps, each taken
only while the game was neither lost nor won (the `play_game` loop guard). -/
inductive Reachable : BoardGame → BoardGame → Prop
  | refl (b : BoardGame) : Reachable b b
  | step (b b' b'' : BoardGame) (inputs rest : List String) :
      Reachable b b' →
      b'.is_game_lost = false → b'.is_game_won = false →
      b'.play_round inputs = some (b'', rest) →
      Reachable b b''

/-! ### Helper lemmas -/

/-- Unfolding of `use_character` on success and on failure. -/
theorem CharacterPool.use_character_eq (p : CharacterPool) (c : String) :
    p.use_character c =
      if c ∈ p.unused_characters then
        some { unused_characters := p.unused_characters.erase c,
               used_characters := insert c p.used_characters }
      else none := by
  simp only [CharacterPool.use_character]

/-- Iterated decrements subtract the iteration count from `tries`. -/
theorem Man.tries_iterate_bring_closer (k : Nat) (m : Man) :
    (Man.bring_closer_to_hanging^[k] m).tries = m.tries - k := by
  induction k generalizing m with
  | zero => simp
  | succ n ih =>
      rw [Function.iterate_succ_apply]
      rw [ih]
      simp [Man.bring_closer_to_hanging]
      ring

/-- Every member of the alphabet pool is a one-character string. -/
theorem length_of_mem_alphabet :
    ∀ s ∈ ascii_uppercase.toFinset, s.length = 1 := by
  intro s hs
  rw [List.mem_toFinset] at hs
  simp only [ascii_uppercase, List.mem_map] at hs
  obtain ⟨c, _, rfl⟩ := hs
  rfl

/-- Under the partition invariant, the unused pool is exactly the alphabet
minus the used pool. -/
theorem mem_unused_iff (p : CharacterPool)
    (hd : Disjoint p.unused_characters p.used_characters)
    (hu : p.unused_characters ∪ p.used_characters = ascii_uppercase.toFinset)
    (g : String) :
    g ∈ p.unused_characters ↔
      g ∈ ascii_uppercase.toFinset ∧ g ∉ p.used_characters := by
  constructor
  · intro h
    exact ⟨hu ▸ Finset.mem_union_left _ h, Finset.disjoint_left.mp hd h⟩
  · rintro ⟨ha, hn⟩
    rw [← hu] at ha
    rcases Finset.mem_union.mp ha with h | h
    · exact h
    · exact absurd h hn

/-- The validity flag of `validate_input` is exactly membership in the
unused pool. -/
theorem validate_input_fst_iff (b : BoardGame) (g : String) :
    (b.validate_input g).1 = true ↔
      g ∈ b.character_pool.unused_characters := by
  unfold BoardGame.validate_input
  split_ifs with h1 h2 h3 h4 <;> simp_all [BoardGame.valid_guess]

/-- A guess returned by the `get_valid_guess` loop was accepted by
`validate_input`. -/
theorem get_valid_guess_accepted (b : BoardGame) :
    ∀ (inputs : List String) (g : String) (rest : List String),
      b.get_valid_guess inputs = some (g, rest) →
      (b.validate_input g).1 = true := by
  intro inputs
  induction inputs with
  | nil => intro g rest h; simp [BoardGame.get_valid_guess] at h
  | cons raw tail ih =>
      intro g rest h
      simp only [BoardGame.get_valid_guess] at h
      by_cases hv :
          (b.validate_input (CharacterPool.normalize_character raw)).1 = true
      · simp only [hv, if_true] at h
        obtain ⟨h1, h2⟩ := Prod.mk.injEq .. ▸ Option.some.injEq .. ▸ h
        rw [← h1]
        exact hv
      · rw [if_neg (by simpa using hv)] at h
        exact ih g rest h

/-! ### Claim theorems -/

/-- C2: under the used/unused partition invariant, validation classifies a
normalized input by mutually exclusive cases: empty input is rejected with the
empty-input message, input longer than one character with the one-character
message, an already-used letter with the already-guessed message, any other
single character with the invalid-option message, and the input is accepted
exactly when it is a not-yet-used alphabet letter. Validation returns only a
flag and a message — it takes no new state, so rejection leaves the game
state unchanged — and the `get_valid_guess` loop skips every rejected input
and re-prompts until an input is accepted. -/
theorem validate_input_classification :
    (∀ (b : BoardGame) (g : String),
      Disjoint b.character_pool.unused_characters
        b.character_pool.used_characters →
      b.character_pool.unused_characters ∪ b.character_pool.used_characters =
        ascii_uppercase.toFinset →
      (g.length = 0 → b.validate_input g = (false, some EMPTY_INPUT_MSG)) ∧
      (g.length > 1 → b.validate_input g = (false, some MULTI_CHAR_INPUT_MSG)) ∧
      (g.length = 1 → g ∈ b.character_pool.used_characters →
        b.validate_input g = (false, some (ALREADY_GUESSED_MSG g))) ∧
      (g.length = 1 → g ∉ b.character_pool.used_characters →
        g ∉ b.character_pool.unused_characters →
        b.validate_input g = (false, some (INVALID_INPUT_MSG g))) ∧
      ((b.validate_input g).1 = true ↔
        g ∈ ascii_uppercase.toFinset ∧
          g ∉ b.character_pool.used_characters)) ∧
    (∀ (b : BoardGame) (inputs : List String) (g : String)
        (rest : List String),
      b.get_valid_guess inputs = some (g, rest) →
      (b.validate_input g).1 = true) ∧
    (∀ (b : BoardGame) (raw : String) (rest : List String),
      (b.validate_input (CharacterPool.normalize_character raw)).1 = false →
      b.get_valid_guess (raw :: rest) = b.get_valid_guess rest) := by
  refine ⟨fun b g hd hu => ?_, get_valid_guess_accepted, fun b raw rest hv => ?_⟩
  · have hlen1 := length_of_mem_alphabet
    have hval := validate_input_fst_iff b g
    have hiff := mem_unused_iff b.character_pool hd hu g
    refine ⟨fun h0 => ?_, fun h1 => ?_, fun h1 hused => ?_,
      fun h1 hused hunused => ?_, by rw [hval, hiff]⟩
    · have hnu : g ∉ b.character_pool.unused_characters := fun hmem =>
        by have := hlen1 g (hiff.mp hmem).1; omega
      unfold BoardGame.validate_input
      rw [if_neg (by simp [BoardGame.valid_guess, hnu]),
        if_pos (by simp [empty_input, h0])]
    · have hnu : g ∉ b.character_pool.unused_characters := fun hmem =>
        by have := hlen1 g (hiff.mp hmem).1; omega
      unfold BoardGame.validate_input
      rw [if_neg (by simp [BoardGame.valid_guess, hnu]),
        if_neg (by simp [empty_input]; omega),
        if_pos (by simp [multi_character_input, h1])]
    · have hnu : g ∉ b.character_pool.unused_characters :=
        fun hmem => (hiff.mp hmem).2 hused
      unfold BoardGame.validate_input
      rw [if_neg (by simp [BoardGame.valid_guess, hnu]),
        if_neg (by simp [empty_input]; omega),
        if_neg (by simp [multi_character_input]; omega),
        if_pos (by simp [BoardGame.character_already_guessed, hused])]
    · unfold BoardGame.validate_input
      rw [if_neg (by simp [BoardGame.valid_guess, hunused]),
        if_neg (by simp [empty_input]; omega),
        if_neg (by simp [multi_character_input]; omega),
        if_neg (by simp [BoardGame.character_already_guessed, hused])]
  · simp only [BoardGame.get_valid_guess]
    rw [if_neg (by simp [hv])]

/-- Witness for C2: a pool with the letter A used, exercising every
classification branch, the acceptance criterion, and the re-prompt loop. -/
theorem validate_input_classification_witness :
    (Disjoint
        (BoardGame.mk (Word.init "cat") (Man.mk 10)
          (CharacterPool.mk (CharacterPool.init.unused_characters.erase "A")
            (insert "A" ∅))).character_pool.unused_characters
        (BoardGame.mk (Word.init "cat") (Man.mk 10)
          (CharacterPool.mk (CharacterPool.init.unused_characters.erase "A")
            (insert "A" ∅))).character_pool.used_characters ∧
      (BoardGame.mk (Word.init "cat") (Man.mk 10)
          (CharacterPool.mk (CharacterPool.init.unused_characters.erase "A")
            (insert "A" ∅))).character_pool.unused_characters ∪
        (BoardGame.mk (Word.init "cat") (Man.mk 10)
          (CharacterPool.mk (CharacterPool.init.unused_characters.erase "A")
            (insert "A" ∅))).character_pool.used_characters =
          ascii_uppercase.toFinset) ∧
    (BoardGame.mk (Word.init "cat") (Man.mk 10)
        (CharacterPool.mk (CharacterPool.init.unused_characters.erase "A")
          (insert "A" ∅))).validate_input "" =
      (false, some EMPTY_INPUT_MSG) ∧
    (BoardGame.mk (Word.init "cat") (Man.mk 10)
        (CharacterPool.mk (CharacterPool.init.unused_characters.erase "A")
          (insert "A" ∅))).validate_input "AB" =
      (false, some MULTI_CHAR_INPUT_MSG) ∧
    (BoardGame.mk (Word.init "cat") (Man.mk 10)
        (CharacterPool.mk (CharacterPool.init.unused_characters.erase "A")
          (insert "A" ∅))).validate_input "A" =
      (false, some (ALREADY_GUESSED_MSG "A")) ∧
    (BoardGame.mk (Word.init "cat") (Man.mk 10)
        (CharacterPool.mk (CharacterPool.init.unused_characters.erase "A")
          (insert "A" ∅))).validate_input "5" =
      (false, some (INVALID_INPUT_MSG "5")) ∧
    ((BoardGame.mk (Word.init "cat") (Man.mk 10)
        (CharacterPool.mk (CharacterPool.init.unused_characters.erase "A")
          (insert "A" ∅))).validate_input "B").1 = true ∧
    (BoardGame.mk (Word.init "cat") (Man.mk 10)
        (CharacterPool.mk (CharacterPool.init.unused_characters.erase "A")
          (insert "A" ∅))).get_valid_guess ["5", "b"] =
      (BoardGame.mk (Word.init "cat") (Man.mk 10)
        (CharacterPool.mk (CharacterPool.init.unused_characters.erase "A")
          (insert "A" ∅))).get_valid_guess ["b"] := by
  have hd : Disjoint
      (BoardGame.mk (Word.init "cat") (Man.mk 10)
        (CharacterPool.mk (CharacterPool.init.unused_characters.erase "A")
          (insert "A" ∅))).character_pool.unused_characters
      (BoardGame.mk (Word.init "cat") (Man.mk 10)
        (CharacterPool.mk (CharacterPool.init.unused_characters.erase "A")
          (insert "A" ∅))).character_pool.used_characters := by decide
  have hu : (BoardGame.mk (Word.init "cat") (Man.mk 10)
        (CharacterPool.mk (CharacterPool.init.unused_characters.erase "A")
          (insert "A" ∅))).character_pool.unused_characters ∪
      (BoardGame.mk (Word.init "cat") (Man.mk 10)
        (CharacterPool.mk (CharacterPool.init.unused_characters.erase "A")
          (insert "A" ∅))).character_pool.used_characters =
        ascii_uppercase.toFinset := by decide
  have h := validate_input_classification.1 _ "" hd hu
  have h2 := validate_input_classification.1 _ "AB" hd hu
  have h3 := validate_input_classification.1 _ "A" hd hu
  have h4 := validate_input_classification.1 _ "5" hd hu
  have h5 := validate_input_classification.1 _ "B" hd hu
  refine ⟨⟨hd, hu⟩, h.1 (by decide), h2.2.1 (by decide),
    h3.2.2.1 (by decide) (by decide),
    h4.2.2.2.1 (by decide) (by decide) (by decide),
    h5.2.2.2.2.mpr ⟨by decide, by decide⟩,
    validate_input_classification.2.2 _ "5" ["b"] (by decide)⟩

/-- Unfolding of `play_round` on an accepted guess that is still unused. -/
theorem play_round_eq (b : BoardGame) (inputs : List String) (g : String)
    (rest : List String)
    (hg : b.get_valid_guess inputs = some (g, rest))
    (hun : g ∈ b.character_pool.unused_characters) :
    b.play_round inputs =
      some ({ word := (b.word.guess_character g).2,
              man := { tries :=
                if (b.word.guess_character g).1 then b.man.tries
                else b.man.tries - 1 },
              character_pool :=
                { unused_characters :=
                    b.character_pool.unused_characters.erase g,
                  used_characters :=
                    insert g b.character_pool.used_characters } }, rest) := by
  unfold BoardGame.play_round
  rw [hg]
  simp only [CharacterPool.use_character_eq, if_pos hun]
  by_cases hc : (b.word.guess_character g).1 <;>
    simp [hc, Man.bring_closer_to_hanging]

/-- Inversion of a successful `play_round`: it was driven by an accepted,
still-unused guess, and the next state is the canonical update. -/
theorem play_round_some_inv (b : BoardGame) (inputs : List String)
    (b' : BoardGame) (rest : List String)
    (h : b.play_round inputs = some (b', rest)) :
    ∃ g, b.get_valid_guess inputs = some (g, rest) ∧
      g ∈ b.character_pool.unused_characters ∧
      b' = { word := (b.word.guess_character g).2,
             man := { tries :=
               if (b.word.guess_character g).1 then b.man.tries
               else b.man.tries - 1 },
             character_pool :=
               { unused_characters :=
                   b.character_pool.unused_characters.erase g,
                 used_characters :=
                   insert g b.character_pool.used_characters } } := by
  cases hg : b.get_valid_guess inputs with
  | none =>
      rw [BoardGame.play_round, hg] at h
      cases h
  | some pr =>
      obtain ⟨g, r⟩ := pr
      by_cases hun : g ∈ b.character_pool.unused_characters
      · have heq := play_round_eq b inputs g r hg hun
        rw [heq] at h
        injection h with h1
        injection h1 with hb hr
        subst hr
        exact ⟨g, rfl, hun, hb.symm⟩
      · exfalso
        rw [BoardGame.play_round, hg] at h
        simp [CharacterPool.use_character_eq, hun] at h

/-- One round's pool update preserves the used/unused partition. -/
theorem partition_step (p : CharacterPool) (g : String)
    (hd : Disjoint p.unused_characters p.used_characters)
    (hu : p.unused_characters ∪ p.used_characters = ascii_uppercase.toFinset)
    (hg : g ∈ p.unused_characters) :
    Disjoint (p.unused_characters.erase g) (insert g p.used_characters) ∧
    (p.unused_characters.erase g) ∪ (insert g p.used_characters) =
      ascii_uppercase.toFinset := by
  constructor
  · rw [Finset.disjoint_left]
    intro x hx hx'
    obtain ⟨hxg, hxu⟩ := Finset.mem_erase.mp hx
    rcases Finset.mem_insert.mp hx' with h | h
    · exact hxg h
    · exact Finset.disjoint_left.mp hd hxu h
  · rw [← hu]
    ext x
    simp only [Finset.mem_union, Finset.mem_erase, Finset.mem_insert]
    by_cases hxg : x = g
    · subst hxg
      tauto
    · tauto

/-! ### Claim theorems (continued) -/

/-- C1: a controller round on an accepted guess applies exactly
`guess_character`, then decrements `tries` by one exactly when the guess was
incorrect (no decrement on a correct guess, never an increment), then
unconditionally marks the letter used, moving it from the unused to the used
pool. -/
theorem play_round_applies_guess (b : BoardGame) (inputs : List String)
    (g : String) (rest : List String)
    (hg : b.get_valid_guess inputs = some (g, rest)) :
    b.play_round inputs =
      some ({ word := (b.word.guess_character g).2,
              man := { tries :=
                if (b.word.guess_character g).1 then b.man.tries
                else b.man.tries - 1 },
              character_pool :=
                { unused_characters :=
                    b.character_pool.unused_characters.erase g,
                  used_characters :=
                    insert g b.character_pool.used_characters } }, rest) :=
  play_round_eq b inputs g rest hg
    ((validate_input_fst_iff b g).mp (get_valid_guess_accepted b inputs g rest hg))

/-- Witness for C1: one round of the game on "cat" with the wrong guess "z". -/
theorem play_round_applies_guess_witness :
    (BoardGame.init "cat").get_valid_guess ["z"] = some ("Z", []) ∧
    (BoardGame.init "cat").play_round ["z"] =
      some ({ word := ((BoardGame.init "cat").word.guess_character "Z").2,
              man := { tries :=
                if ((BoardGame.init "cat").word.guess_character "Z").1
                then (BoardGame.init "cat").man.tries
                else (BoardGame.init "cat").man.tries - 1 },
              character_pool :=
                { unused_characters :=
                    (BoardGame.init
                      "cat").character_pool.unused_characters.erase "Z",
                  used_characters :=
                    insert "Z"
                      (BoardGame.init
                        "cat").character_pool.used_characters } }, []) :=
  ⟨by decide,
    play_round_applies_guess (BoardGame.init "cat") ["z"] "Z" [] (by decide)⟩

/-- C3: along the round loop, the tries counter never increases from state to
state, and, starting from a non-negative count, it is non-negative in every
reachable state. -/
theorem tries_monotone_and_nonneg (b b' : BoardGame) (h : Reachable b b') :
    b'.man.tries ≤ b.man.tries ∧ (0 ≤ b.man.tries → 0 ≤ b'.man.tries) := by
  induction h with
  | refl => exact ⟨le_refl _, fun h0 => h0⟩
  | step b1 b2 inputs rest hre hlost hwon hplay ih =>
      obtain ⟨g, hg, hun, rfl⟩ := play_round_some_inv b1 inputs b2 rest hplay
      have hne : b1.man.tries ≠ 0 := by
        simpa [BoardGame.is_game_lost, Man.is_hanged] using hlost
      constructor
      · refine le_trans ?_ ih.1
        by_cases hc : (b1.word.guess_character g).1 <;> simp [hc]
      · intro h0
        have h1 := ih.2 h0
        by_cases hc : (b1.word.guess_character g).1 <;> simp [hc] <;> omega

/-- Witness for C3: one wrong guess from the fresh game on "cat". -/
theorem tries_monotone_and_nonneg_witness :
    (BoardGame.mk (Word.init "cat") (Man.mk 9)
        (CharacterPool.mk (CharacterPool.init.unused_characters.erase "Z")
          (insert "Z" ∅))).man.tries ≤ (BoardGame.init "cat").man.tries ∧
    (0 ≤ (BoardGame.init "cat").man.tries →
      0 ≤ (BoardGame.mk (Word.init "cat") (Man.mk 9)
        (CharacterPool.mk (CharacterPool.init.unused_characters.erase "Z")
          (insert "Z" ∅))).man.tries) :=
  tries_monotone_and_nonneg (BoardGame.init "cat") _
    (Reachable.step _ _ _ ["z"] [] (Reachable.refl _) (by decide) (by decide)
      (by decide))

/-- C5: in every state the round loop reaches from the initial state, the
unused and used pools are disjoint and their union is the full 26-letter
alphabet (each letter lies in exactly one); moreover a round's accepted guess
was still unused (so never accepted before) and not yet used, and the round
moves exactly that letter from the unused pool to the used pool. -/
theorem pool_partition_invariant :
    (∀ (word : String) (b' : BoardGame),
      Reachable (BoardGame.init word) b' →
      Disjoint b'.character_pool.unused_characters
        b'.character_pool.used_characters ∧
      b'.character_pool.unused_characters ∪
        b'.character_pool.used_characters = ascii_uppercase.toFinset) ∧
    (∀ (b : BoardGame) (inputs : List String) (g : String)
        (rest : List String) (b' : BoardGame),
      b.get_valid_guess inputs = some (g, rest) →
      b.play_round inputs = some (b', rest) →
      g ∈ b.character_pool.unused_characters ∧
      (Disjoint b.character_pool.unused_characters
          b.character_pool.used_characters →
        g ∉ b.character_pool.used_characters) ∧
      b'.character_pool.used_characters =
        insert g b.character_pool.used_characters ∧
      b'.character_pool.unused_characters =
        b.character_pool.unused_characters.erase g) := by
  constructor
  · intro word b' h
    induction h with
    | refl =>
        constructor
        · simp [BoardGame.init, CharacterPool.init]
        · simp [BoardGame.init, CharacterPool.init]
    | step b1 b2 inputs rest hre hlost hwon hplay ih =>
        obtain ⟨g, hg, hun, rfl⟩ := play_round_some_inv b1 inputs b2 rest hplay
        exact partition_step b1.character_pool g ih.1 ih.2 hun
  · intro b inputs g rest b' hg hplay
    obtain ⟨g', hg', hun, rfl⟩ := play_round_some_inv b inputs b' rest hplay
    have hgg : g' = g := by
      rw [hg] at hg'
      injection hg' with h1
      injection h1 with ha hb
      exact ha.symm
    subst hgg
    exact ⟨hun, fun hd => Finset.disjoint_left.mp hd hun, rfl, rfl⟩

/-- Witness for C5: the state after one wrong guess "z" from the fresh game
on "cat" still partitions the alphabet, and that round moved exactly "Z". -/
theorem pool_partition_invariant_witness :
    (Disjoint (BoardGame.mk (Word.init "cat") (Man.mk 9)
        (CharacterPool.mk (CharacterPool.init.unused_characters.erase "Z")
          (insert "Z" ∅))).character_pool.unused_characters
      (BoardGame.mk (Word.init "cat") (Man.mk 9)
        (CharacterPool.mk (CharacterPool.init.unused_characters.erase "Z")
          (insert "Z" ∅))).character_pool.used_characters ∧
     (BoardGame.mk (Word.init "cat") (Man.mk 9)
        (CharacterPool.mk (CharacterPool.init.unused_characters.erase "Z")
          (insert "Z" ∅))).character_pool.unused_characters ∪
       (BoardGame.mk (Word.init "cat") (Man.mk 9)
        (CharacterPool.mk (CharacterPool.init.unused_characters.erase "Z")
          (insert "Z" ∅))).character_pool.used_characters =
         ascii_uppercase.toFinset) ∧
    ("Z" ∈ (BoardGame.init "cat").character_pool.unused_characters ∧
     (BoardGame.mk (Word.init "cat") (Man.mk 9)
        (CharacterPool.mk (CharacterPool.init.unused_characters.erase "Z")
          (insert "Z" ∅))).character_pool.used_characters =
       insert "Z" (BoardGame.init "cat").character_pool.used_characters ∧
     (BoardGame.mk (Word.init "cat") (Man.mk 9)
        (CharacterPool.mk (CharacterPool.init.unused_characters.erase "Z")
          (insert "Z" ∅))).character_pool.unused_characters =
       (BoardGame.init "cat").character_pool.unused_characters.erase "Z") := by
  have h1 := pool_partition_invariant.1 "cat"
    (BoardGame.mk (Word.init "cat") (Man.mk 9)
      (CharacterPool.mk (CharacterPool.init.unused_characters.erase "Z")
        (insert "Z" ∅)))
    (Reachable.step _ _ _ ["z"] [] (Reachable.refl _) (by decide) (by decide)
      (by decide))
  have h2 := pool_partition_invariant.2 (BoardGame.init "cat") ["z"] "Z" []
    (BoardGame.mk (Word.init "cat") (Man.mk 9)
      (CharacterPool.mk (CharacterPool.init.unused_characters.erase "Z")
        (insert "Z" ∅)))
    (by decide) (by decide)
  exact ⟨h1, h2.1, h2.2.2.1, h2.2.2.2⟩

/-- C8: when a session starts with the tries counter at 0, the round loop
plays no round and consumes no input, the game is immediately lost, and
`end_the_game` hands the end-of-game render a state whose word is fully
revealed. -/
theorem zero_tries_immediate_loss (b : BoardGame) (inputs : List String)
    (fuel : Nat) (h : b.man.tries = 0) :
    BoardGame.play_game (fuel + 1) b inputs = some (b, inputs) ∧
    b.is_game_lost = true ∧
    (b.end_the_game).word.guessed_characters =
      (b.end_the_game).word.characters_in_word := by
  have hlost : b.is_game_lost = true := by
    simp [BoardGame.is_game_lost, Man.is_hanged, h]
  refine ⟨?_, hlost, ?_⟩
  · simp [BoardGame.play_game, hlost]
  · simp [BoardGame.end_the_game, hlost, Word.reveal]

/-- Witness for C8: a game on "dog" misconfigured to 0 tries. -/
theorem zero_tries_immediate_loss_witness :
    (BoardGame.mk (Word.init "dog") (Man.mk 0)
      CharacterPool.init).man.tries = 0 ∧
    (BoardGame.play_game 1
        (BoardGame.mk (Word.init "dog") (Man.mk 0) CharacterPool.init)
        ["a"] =
      some (BoardGame.mk (Word.init "dog") (Man.mk 0) CharacterPool.init,
        ["a"]) ∧
     (BoardGame.mk (Word.init "dog") (Man.mk 0)
       CharacterPool.init).is_game_lost = true ∧
     ((BoardGame.mk (Word.init "dog") (Man.mk 0)
         CharacterPool.init).end_the_game).word.guessed_characters =
       ((BoardGame.mk (Word.init "dog") (Man.mk 0)
         CharacterPool.init).end_the_game).word.characters_in_word) :=
  ⟨rfl,
    zero_tries_immediate_loss
      (BoardGame.mk (Word.init "dog") (Man.mk 0) CharacterPool.init)
      ["a"] 0 rfl⟩

/-- C9: `CharacterPool.use_character` (markUsed) fails exactly when the
character is not in the unused set; when it is, the call removes it from the
unused set and adds it to the used set. -/
theorem use_character_fails_iff_not_unused (p : CharacterPool) (c : String) :
    (p.use_character c = none ↔ c ∉ p.unused_characters) ∧
    (c ∈ p.unused_characters →
      p.use_character c =
        some { unused_characters := p.unused_characters.erase c,
               used_characters := insert c p.used_characters }) := by
  rw [CharacterPool.use_character_eq]
  constructor
  · by_cases h : c ∈ p.unused_characters <;> simp [h]
  · intro h
    simp [h]

/-- Witness for C9 at the initial pool and the letter `"A"`. -/
theorem use_character_fails_iff_not_unused_witness :
    "A" ∈ CharacterPool.init.unused_characters ∧
    CharacterPool.init.use_character "A" =
      some { unused_characters := CharacterPool.init.unused_characters.erase "A",
             used_characters := insert "A" CharacterPool.init.used_characters } :=
  ⟨by decide,
    (use_character_fails_iff_not_unused CharacterPool.init "A").2 (by decide)⟩

/-- C10: `Man.is_hanged` is `not self.tries`, i.e. true exactly when `tries`
is 0; every nonzero value, negative values included, gives `false`, and once
the counter is negative no number of further decrements ever makes
`is_hanged` fire. -/
theorem is_hanged_iff_tries_zero (t : Int) :
    (Man.is_hanged { tries := t } = true ↔ t = 0) ∧
    (t ≠ 0 → Man.is_hanged { tries := t } = false) ∧
    (t < 0 → ∀ k : Nat,
      Man.is_hanged (Man.bring_closer_to_hanging^[k] { tries := t }) = false) := by
  refine ⟨by simp [Man.is_hanged], fun h => by simp [Man.is_hanged, h], ?_⟩
  intro ht k
  simp only [Man.is_hanged, Man.tries_iterate_bring_closer]
  simp
  omega

/-- Witness for C10 at `tries = -1`. -/
theorem is_hanged_iff_tries_zero_witness :
    ((-1 : Int) ≠ 0 ∧ Man.is_hanged { tries := (-1 : Int) } = false) ∧
    ((-1 : Int) < 0 ∧
      Man.is_hanged (Man.bring_closer_to_hanging^[3] { tries := (-1 : Int) }) = false) :=
  ⟨⟨by decide, (is_hanged_iff_tries_zero (-1)).2.1 (by decide)⟩,
    ⟨by decide, (is_hanged_iff_tries_zero (-1)).2.2 (by decide) 3⟩⟩

/-- C4 counterexample: calling `Man.bring_closer_to_hanging` (consumeTry)
with `tries = 0` does not fail: it silently decrements, yielding `tries = -1`
(the method is total, `self.tries -= 1` with no check, so no
`InvariantViolation` is signalled). -/
theorem bring_closer_at_zero_silently_decrements :
    Man.bring_closer_to_hanging { tries := 0 } = { tries := -1 } := rfl

/-- C4 amended: `Man.bring_closer_to_hanging` unconditionally decrements
`tries` by one, also when called at 0 (where it yields -1) — it never signals
a failure. -/
theorem bring_closer_always_decrements (m : Man) :
    m.bring_closer_to_hanging = { tries := m.tries - 1 } := rfl

/-- C6: the guessed set is a subset of the word's character set: initially
(empty set), preserved by every `guess_character` call (which also leaves the
character set unchanged), and after `reveal`. -/
theorem guessed_subset_characters :
    (∀ s : String,
      (Word.init s).guessed_characters ⊆ (Word.init s).characters_in_word) ∧
    (∀ (w : Word) (c : String),
      w.guessed_characters ⊆ w.characters_in_word →
      (w.guess_character c).2.guessed_characters ⊆
        (w.guess_character c).2.characters_in_word ∧
      (w.guess_character c).2.characters_in_word = w.characters_in_word) ∧
    (∀ w : Word,
      (w.reveal).guessed_characters ⊆ (w.reveal).characters_in_word) := by
  refine ⟨fun s => by simp [Word.init], fun w c h => ?_, fun w => ?_⟩
  · unfold Word.guess_character
    by_cases hc : c ∈ w.characters_in_word <;>
      simp [hc, Finset.insert_subset_iff, h]
  · simp [Word.reveal]

/-- Witness for C6 at the word "cat" and the guess "A". -/
theorem guessed_subset_characters_witness :
    (Word.init "cat").guessed_characters ⊆
      (Word.init "cat").characters_in_word ∧
    ((Word.init "cat").guess_character "A").2.guessed_characters ⊆
      ((Word.init "cat").guess_character "A").2.characters_in_word :=
  ⟨by decide,
    (guessed_subset_characters.2.1 (Word.init "cat") "A" (by decide)).1⟩

/-- C7: the masked view has one entry per position of the word, in original
order: the letter where that letter is guessed, an underscore elsewhere; all
positions holding a letter are revealed together as soon as that letter is
correctly guessed; and when every letter of the word is guessed the masked
view is the word itself. -/
theorem current_guessed_state_spec :
    (∀ w : Word, w.current_guessed_state.length = w.plain_word.length) ∧
    (∀ (w : Word) (i : Nat),
      w.current_guessed_state[i]? =
        (w.plain_word[i]?).map
          (fun c => if c ∈ w.guessed_characters then c else "_")) ∧
    (∀ w : Word, (∀ c ∈ w.plain_word, c ∈ w.guessed_characters) →
      w.current_guessed_state = w.plain_word) ∧
    (∀ (w : Word) (c : String), (w.guess_character c).1 = true →
      ∀ i : Nat, w.plain_word[i]? = some c →
        ((w.guess_character c).2.current_guessed_state)[i]? = some c) := by
  refine ⟨fun w => by simp [Word.current_guessed_state],
    fun w i => by simp [Word.current_guessed_state],
    fun w h => ?_, fun w c hc i hi => ?_⟩
  · unfold Word.current_guessed_state
    conv_rhs => rw [← List.map_id w.plain_word]
    exact List.map_congr_left (fun x hx => by simp [h x hx])
  · unfold Word.guess_character at hc ⊢
    by_cases hmem : c ∈ w.characters_in_word
    · simp only [hmem, if_true]
      simp [Word.current_guessed_state, hi]
    · simp [hmem] at hc

/-- Witness for C7 at the word "apple" and the guess "P" (two occurrences),
and at a fully revealed word. -/
theorem current_guessed_state_spec_witness :
    (((Word.init "apple").guess_character "P").1 = true ∧
      (Word.init "apple").plain_word[1]? = some "P" ∧
      (Word.init "apple").plain_word[2]? = some "P" ∧
      (((Word.init "apple").guess_character "P").2.current_guessed_state)[1]? =
        some "P" ∧
      (((Word.init "apple").guess_character "P").2.current_guessed_state)[2]? =
        some "P") ∧
    ((∀ c ∈ (Word.init "cat").reveal.plain_word,
        c ∈ (Word.init "cat").reveal.guessed_characters) ∧
      (Word.init "cat").reveal.current_guessed_state =
        (Word.init "cat").reveal.plain_word) :=
  ⟨⟨by decide, by decide, by decide,
    current_guessed_state_spec.2.2.2 (Word.init "apple") "P" (by decide) 1
      (by decide),
    current_guessed_state_spec.2.2.2 (Word.init "apple") "P" (by decide) 2
      (by decide)⟩,
    ⟨by decide,
      current_guessed_state_spec.2.2.1 (Word.init "cat").reveal (by decide)⟩⟩

end Hangman
